import Mathlib

/-!
# A verification model of the Lambda_MGEN_GPT retrieval core

This file gives a shallow embedding of the retrieval core of the
Lambda_MGEN_GPT repository: the scatter-gather document search
(`search_documents_parallel` and `_search_single_collection_optimized` in
`src/services/shared/lambda_chroma_service.py`), deduplication
(`_deduplicate_documents`), the collection directory with its cache,
pagination loop and fallback naming scheme (`get_batch_collections` in
`lambda_chroma_service.py` and in
`src/services/chat_service/lambda_gpu_chatbot_optimized.py`), and the
relevance-scoring blend (`_calculate_relevance_score` /
`_filter_and_rank_documents` in `lambda_gpu_chatbot_optimized.py`).

Modelling conventions:
* Python dictionaries carrying document fields become structures; scores and
  timestamps are rationals (`ℚ`).
* The vector store, the embedding service and the wall clock are explicit
  parameters.  A remote call that can raise is a value of `Except Unit α`;
  a `try/except` block that swallows the error becomes a `match` that maps
  `Except.error` to the handler's return value.
* Python's stable `list.sort(key=...)` is modelled by `List.insertionSort`
  with the corresponding (total, transitive) relation; a stable sort is
  extensionally determined by the key order and the input order, so any
  stable sorting algorithm gives the same list as CPython's Timsort.
* `str.lower` / `str.split()` / the substring test `t in s` are modelled
  character-wise over the underlying `Char` lists (the corpus is ASCII).
* Unbounded `while True` pagination loops take a fuel argument; all
  statements about them assume enough fuel for the run under consideration.
-/

set_option linter.unusedVariables false

namespace MgenGpt

/-- One retrieved passage as assembled by
`_search_single_collection_optimized` (lambda_chroma_service.py lines
253-260): fields `id`, `content`, `metadata` (of which only `title` is ever
read downstream), `distance`, `similarity`, `collection`. -/
structure SearchDoc where
  id : String
  content : String
  title : String
  distance : ℚ
  similarity : ℚ
  collection : String
deriving DecidableEq

/-- A raw per-shard hit as decoded from the vector store's `query` response
(parallel arrays `ids`, `documents`, `metadatas`, `distances`). -/
structure RawDoc where
  id : String
  content : String
  title : String
  distance : ℚ
deriving DecidableEq

/-- A document together with the `relevance_score` field that
`_filter_and_rank_documents` writes into it. -/
structure ScoredDoc where
  doc : SearchDoc
  relevance_score : ℚ
deriving DecidableEq

/-- The `collections_cache` / `last_cache_update` instance state shared by
both collection-directory variants. -/
structure CacheState where
  collections_cache : List String
  last_cache_update : ℚ
deriving DecidableEq

/-- `str.lower()`, character-wise (the corpus and queries are ASCII). -/
def lower (s : String) : String := String.mk (s.data.map Char.toLower)

/-- Python's substring test `t in s`. -/
def isSubstrOf (t s : String) : Bool := decide (t.data <:+: s.data)

/-- Helper for `splitWs`: accumulates the current word (reversed). -/
def splitWsAux : List Char → List Char → List String
  | [], acc => if acc.isEmpty then [] else [String.mk acc.reverse]
  | c :: cs, acc =>
    if c.isWhitespace then
      if acc.isEmpty then splitWsAux cs [] else String.mk acc.reverse :: splitWsAux cs []
    else splitWsAux cs (c :: acc)

/-- `str.split()` with no argument: split on runs of whitespace, dropping
empty pieces. -/
def splitWs (s : String) : List String := splitWsAux s.data []

/-- `_search_single_collection_optimized` (lambda_chroma_service.py lines
220-266): queries one collection and decorates each raw hit with
`similarity = 1 - distance`; any exception makes the shard contribute the
empty list.  `store` stands for the remote `collection.query` call,
already specialised to the query embedding and the `university_id` filter
(both only select the response and are otherwise opaque here). -/
def _search_single_collection_optimized
    (store : String → Nat → Except Unit (List RawDoc))
    (collection_name : String) (n_results : Nat) : List SearchDoc :=
  match store collection_name n_results with
  | Except.error _ => []
  | Except.ok rs =>
      rs.map (fun r =>
        { id := r.id, content := r.content, title := r.title,
          distance := r.distance, similarity := 1 - r.distance,
          collection := collection_name })

/-- One step of the `seen_ids` dictionary update in `_deduplicate_documents`
(lambda_chroma_service.py lines 271-279): insert-or-replace keyed by `id`,
replacing only when the new similarity is strictly greater; a Python dict
keeps the key's original position, so replacement is in place and a new key
is appended at the end. -/
def dedupInsert (acc : List SearchDoc) (d : SearchDoc) : List SearchDoc :=
  match acc with
  | [] => [d]
  | x :: xs =>
    if x.id = d.id then
      (if d.similarity > x.similarity then d :: xs else x :: xs)
    else x :: dedupInsert xs d

/-- `_deduplicate_documents` (lambda_chroma_service.py lines 268-288): fold
the hits through the `seen_ids` dictionary and return its values. -/
def _deduplicate_documents (documents : List SearchDoc) : List SearchDoc :=
  documents.foldl dedupInsert []

/-- The sort key of `unique_documents.sort(key=lambda x: x['distance'])`. -/
def distanceLe (a b : SearchDoc) : Prop := a.distance ≤ b.distance

instance : DecidableRel distanceLe := fun a b => inferInstanceAs (Decidable (a.distance ≤ b.distance))

/-- The merge stage of `search_documents_parallel` (lambda_chroma_service.py
lines 193-214): flatten the per-shard result lists in arrival order,
deduplicate, sort by ascending distance (stable), truncate to `n_results`. -/
def gather_and_rank (shard_results : List (List SearchDoc)) (n_results : Nat) : List SearchDoc :=
  ((_deduplicate_documents shard_results.flatten).insertionSort distanceLe).take n_results

/-- `search_documents_parallel` (lambda_chroma_service.py lines 155-218):
truncate the collection list to `max_collections_per_search`, query each
collection for `n_results * 2` hits, merge.  The thread-pool fan-out is
modelled by the list of per-shard results; `gather_and_rank` is stated
separately so that arrival order can be quantified over. -/
def search_documents_parallel
    (store : String → Nat → Except Unit (List RawDoc))
    (collections : List String)
    (max_collections_per_search n_results : Nat) : List SearchDoc :=
  if collections = [] then []
  else
    gather_and_rank
      ((collections.take max_collections_per_search).map
        (fun c => _search_single_collection_optimized store c (n_results * 2)))
      n_results

/-- The body of both variants' pagination loop (`while True:` with
`client.list_collections(limit=1000, offset=offset)`,
lambda_chroma_service.py lines 116-129 and
lambda_gpu_chatbot_optimized.py lines 296-309): stop on an empty page,
extend and stop on a short page, swallow any exception and stop, else
advance the offset by the page size.  `fuel` bounds the number of
iterations of the unbounded Python loop. -/
def fetchAllPages (pages : Nat → Except Unit (List String)) :
    Nat → List String → Nat → List String
  | 0, acc, _ => acc
  | fuel + 1, acc, offset =>
    match pages offset with
    | Except.error _ => acc
    | Except.ok batch =>
      if batch.length = 0 then acc
      else if batch.length < 1000 then acc ++ batch
      else fetchAllPages pages fuel (acc ++ batch) (offset + 1000)

/-- The pages a fully-paginated run accumulates: the `Except.ok` payloads at
offsets `off, off + 1000, ...` for `k` consecutive pages. -/
def okPagesFrom (pages : Nat → Except Unit (List String)) : Nat → Nat → List String
  | _, 0 => []
  | off, k + 1 =>
    (match pages off with | Except.ok p => p | Except.error _ => []) ++
      okPagesFrom pages (off + 1000) k

/-- The keyword filter of the shared-service directory
(lambda_chroma_service.py line 135). -/
def batch_keywords : List String := ["batch", "ultra_optimized", "documents", "northeastern"]

/-- `get_batch_collections` of `LambdaGPUChromaService`
(lambda_chroma_service.py lines 98-153): serve from cache when it is
non-empty, fresh and no forced refresh is requested; otherwise obtain a
client (an exception here reaches the outer handler, which returns the
stale cache), paginate, filter by keyword, and overwrite the cache.  The
pair returned is (new instance state, returned list); `now` is
`time.time()`. -/
def get_batch_collections_svc (st : CacheState) (cache_ttl now : ℚ) (force_refresh : Bool)
    (get_client : Except Unit Unit) (pages : Nat → Except Unit (List String)) (fuel : Nat) :
    CacheState × List String :=
  if force_refresh = false ∧ st.collections_cache ≠ [] ∧
      now - st.last_cache_update < cache_ttl then
    (st, st.collections_cache)
  else
    match get_client with
    | Except.error _ => (st, st.collections_cache)
    | Except.ok _ =>
      let all_collections := fetchAllPages pages fuel [] 0
      let batch_collections := all_collections.filter
        (fun name => batch_keywords.any (fun k => isSubstrOf k (lower name)))
      ({ collections_cache := batch_collections, last_cache_update := now },
       batch_collections)

/-- The fallback list synthesised by `get_batch_collections` of the
optimized chatbot (lambda_gpu_chatbot_optimized.py lines 324-326):
`documents_ultra_optimized_batch_{i}` for `i` in `range(1, 3281)`. -/
def fallback_collections : List String :=
  (List.range 3280).map (fun i => "documents_ultra_optimized_batch_" ++ toString (i + 1))

/-- `get_batch_collections` of `LambdaGPUChromaService` in
`lambda_gpu_chatbot_optimized.py` (lines 281-332): same cache head; no
keyword filtering (all collections are used); an exception escaping the
inner pagination loop (in particular one raised by `get_client`) triggers
the fallback-name synthesis, while exceptions raised by
`list_collections` itself are caught inside the loop. -/
def get_batch_collections_opt (st : CacheState) (cache_ttl now : ℚ) (force_refresh : Bool)
    (get_client : Except Unit Unit) (pages : Nat → Except Unit (List String)) (fuel : Nat) :
    CacheState × List String :=
  if force_refresh = false ∧ st.collections_cache ≠ [] ∧
      now - st.last_cache_update < cache_ttl then
    (st, st.collections_cache)
  else
    match get_client with
    | Except.error _ =>
      ({ collections_cache := fallback_collections, last_cache_update := now },
       fallback_collections)
    | Except.ok _ =>
      let all_collections := fetchAllPages pages fuel [] 0
      ({ collections_cache := all_collections, last_cache_update := now },
       all_collections)

/-- The query-term set `set(query.lower().split())` built by
`_filter_and_rank_documents` (lambda_gpu_chatbot_optimized.py line 520);
a deduplicated list stands for the Python set (every use below is
order-independent). -/
def query_terms_of (query : String) : List String := (splitWs (lower query)).dedup

/-- `_calculate_relevance_score` (lambda_gpu_chatbot_optimized.py lines
540-568): blend embedding similarity with the fraction of query terms
occurring as substrings of the lowercased content and title, then clamp
below by `0.1` and above by `1.0`. -/
def _calculate_relevance_score (doc : SearchDoc) (query_terms : List String) : ℚ :=
  let content := lower doc.content
  let similarity := doc.similarity
  let content_matches : Nat := query_terms.countP (fun t => isSubstrOf t content)
  let content_relevance : ℚ :=
    if query_terms = [] then 0 else (content_matches : ℚ) / (query_terms.length : ℚ)
  let title := lower doc.title
  let title_matches : Nat := query_terms.countP (fun t => isSubstrOf t title)
  let title_boost : ℚ :=
    if query_terms = [] then 0 else (title_matches : ℚ) / (query_terms.length : ℚ)
  min (max 0.1 (similarity * 0.6 + content_relevance * 0.3 + title_boost * 0.1)) 1.0

/-- Sort key for `scored_docs.sort(key=..., reverse=True)`: descending
relevance score. -/
def relevanceGe (a b : ScoredDoc) : Prop := b.relevance_score ≤ a.relevance_score

instance : DecidableRel relevanceGe := fun a b => inferInstanceAs (Decidable (b.relevance_score ≤ a.relevance_score))

/-- `_filter_and_rank_documents` (lambda_gpu_chatbot_optimized.py lines
513-538): score every document against the query-term set, sort by
descending relevance (stable), return the first 10; the `n_results`
argument is accepted but never read. -/
def _filter_and_rank_documents (documents : List SearchDoc) (query : String)
    (n_results : Nat) : List ScoredDoc :=
  if documents = [] then []
  else
    let query_terms := query_terms_of query
    let scored_docs := documents.map
      (fun d => { doc := d, relevance_score := _calculate_relevance_score d query_terms })
    (scored_docs.insertionSort relevanceGe).take 10

/-- `search_documents` of `LambdaGPUUniversityRAGChatbot`
(lambda_gpu_chatbot_optimized.py lines 477-511): embed the query, search the
unified collection, floor every similarity at `0.3`, filter and rank.  The
whole body sits in one `try/except` whose handler returns `[]`, so the
function never lets an exception escape; an embedding-service failure is
the `Except.error` value of `embed_query`. -/
def search_documents
    (embed_query : Except Unit (List ℚ))
    (search_unified : List ℚ → List SearchDoc)
    (query : String) (n_results : Nat) : Except Unit (List ScoredDoc) :=
  Except.ok
    (match embed_query with
     | Except.error _ => []
     | Except.ok emb =>
       let documents := search_unified emb
       let documents := documents.map (fun d => { d with similarity := max 0.3 d.similarity })
       _filter_and_rank_documents documents query n_results)

/-- The stopword list written at
src/services/chat_service/lambda_gpu_chatbot.py line 506 — the "small
stopword list" the specification refers to. -/
def stop_words : List String :=
  ["the", "a", "an", "and", "or", "but", "in", "on", "at", "to", "for", "of",
   "with", "by", "is", "are", "was", "were", "be", "been", "have", "has",
   "had", "do", "does", "did", "will", "would", "could", "should", "may",
   "might", "can", "about", "how", "what", "when", "where", "why", "who"]

/-- Modelled from the spec: the relevance formula as claim C3 words it, with
query terms lowercased, whitespace-split and the stopword list removed
before the overlap fractions are taken.  This is the claimed behaviour, to
be compared with `_calculate_relevance_score` as the code computes it. -/
def relevance_score_claimed (doc : SearchDoc) (query : String) : ℚ :=
  let terms := ((splitWs (lower query)).dedup).filter (fun t => ¬ stop_words.contains t)
  let content_overlap : ℚ :=
    if terms = [] then 0
    else ((terms.countP (fun t => isSubstrOf t (lower doc.content))) : ℚ) / (terms.length : ℚ)
  let title_overlap : ℚ :=
    if terms = [] then 0
    else ((terms.countP (fun t => isSubstrOf t (lower doc.title))) : ℚ) / (terms.length : ℚ)
  min (max 0.1 (doc.similarity * 0.6 + content_overlap * 0.3 + title_overlap * 0.1)) 1.0

/-- The relevance formula stated set-theoretically, without stopword
removal: the amended form of claim C3.  Overlap fractions are cardinalities
of term-set filters, and the clamp is written outside-in; the theorem for
C3 proves this equal to the code's `_calculate_relevance_score` applied to
the code's query-term set. -/
def relevance_score_spec (doc : SearchDoc) (query : String) : ℚ :=
  let terms : Finset String := (splitWs (lower query)).toFinset
  let content_overlap : ℚ :=
    if terms = ∅ then 0
    else ((terms.filter (fun t => isSubstrOf t (lower doc.content) = true)).card : ℚ) / (terms.card : ℚ)
  let title_overlap : ℚ :=
    if terms = ∅ then 0
    else ((terms.filter (fun t => isSubstrOf t (lower doc.title) = true)).card : ℚ) / (terms.card : ℚ)
  max 0.1 (min (doc.similarity * 0.6 + content_overlap * 0.3 + title_overlap * 0.1) 1.0)

end MgenGpt

namespace MgenGpt

/-! ## Properties of the deduplication fold -/

/-- `m` contains a document with id `i`. -/
def hasId (m : List SearchDoc) (i : String) : Prop := ∃ e ∈ m, e.id = i

instance (m : List SearchDoc) (i : String) : Decidable (hasId m i) :=
  inferInstanceAs (Decidable (∃ e ∈ m, e.id = i))

/-- The similarity recorded for id `i` in a result list, through the first
document carrying that id. -/
def simOf (m : List SearchDoc) (i : String) : Option ℚ :=
  (m.find? (fun d => d.id == i)).map SearchDoc.similarity

/-- Running maximum of the similarities seen for id `i`. -/
def maxStep (i : String) (o : Option ℚ) (d : SearchDoc) : Option ℚ :=
  if d.id = i then
    match o with
    | none => some d.similarity
    | some m => some (max m d.similarity)
  else o

/-- The maximal similarity among the documents of `l` with id `i`. -/
def maxSimOf (l : List SearchDoc) (i : String) : Option ℚ :=
  l.foldl (maxStep i) none

instance (i : String) : RightCommutative (maxStep i) := by
  constructor
  intro o d e
  by_cases hd : d.id = i <;> by_cases he : e.id = i <;>
    simp [maxStep, hd, he]
  cases o with
  | none => simp [max_comm]
  | some m => simp [max_assoc, max_comm e.similarity d.similarity]

theorem mem_dedupInsert {acc : List SearchDoc} {d e : SearchDoc}
    (h : e ∈ dedupInsert acc d) : e ∈ acc ∨ e = d := by
  induction acc with
  | nil =>
    simp [dedupInsert] at h
    exact Or.inr h
  | cons x xs ih =>
    by_cases hid : x.id = d.id
    · by_cases hsim : d.similarity > x.similarity
      · simp [dedupInsert, hid, hsim] at h
        rcases h with h | h
        · exact Or.inr h
        · exact Or.inl (List.mem_cons_of_mem _ h)
      · simp [dedupInsert, hid, hsim] at h
        rcases h with h | h
        · exact Or.inl (h ▸ List.mem_cons_self x xs)
        · exact Or.inl (List.mem_cons_of_mem _ h)
    · simp [dedupInsert, hid] at h
      rcases h with h | h
      · exact Or.inl (h ▸ List.mem_cons_self x xs)
      · rcases ih h with h2 | h2
        · exact Or.inl (List.mem_cons_of_mem _ h2)
        · exact Or.inr h2

theorem hasId_dedupInsert (acc : List SearchDoc) (d : SearchDoc) (i : String) :
    hasId (dedupInsert acc d) i ↔ hasId acc i ∨ d.id = i := by
  induction acc with
  | nil => simp [dedupInsert, hasId, eq_comm]
  | cons x xs ih =>
    by_cases hid : x.id = d.id
    · by_cases hsim : d.similarity > x.similarity
      · simp only [dedupInsert, if_pos hid, if_pos hsim]
        simp only [hasId, List.mem_cons, hid]
        aesop
      · simp only [dedupInsert, if_pos hid, if_neg hsim]
        simp only [hasId, List.mem_cons, hid]
        aesop
    · simp only [dedupInsert, if_neg hid]
      simp only [hasId, List.mem_cons] at ih ⊢
      aesop

theorem nodupIds_dedupInsert {acc : List SearchDoc} (d : SearchDoc)
    (h : (acc.map SearchDoc.id).Nodup) :
    ((dedupInsert acc d).map SearchDoc.id).Nodup := by
  induction acc with
  | nil => simp [dedupInsert]
  | cons x xs ih =>
    simp only [List.map_cons, List.nodup_cons] at h
    by_cases hid : x.id = d.id
    · by_cases hsim : d.similarity > x.similarity
      · simp only [dedupInsert, if_pos hid, if_pos hsim, List.map_cons, List.nodup_cons]
        exact ⟨hid ▸ h.1, h.2⟩
      · simp only [dedupInsert, if_pos hid, if_neg hsim, List.map_cons, List.nodup_cons]
        exact h
    · simp only [dedupInsert, if_neg hid, List.map_cons, List.nodup_cons]
      refine ⟨?_, ih h.2⟩
      intro hmem
      rcases List.mem_map.1 hmem with ⟨e, he, hei⟩
      rcases mem_dedupInsert he with h2 | h2
      · exact h.1 (hei ▸ List.mem_map_of_mem SearchDoc.id h2)
      · exact hid (hei ▸ h2 ▸ rfl)


theorem simOf_nil (i : String) : simOf [] i = none := rfl

theorem simOf_cons (x : SearchDoc) (xs : List SearchDoc) (i : String) :
    simOf (x :: xs) i = if x.id = i then some x.similarity else simOf xs i := by
  by_cases h : x.id = i <;> simp [simOf, List.find?_cons, h]

theorem maxStep_id_none {d : SearchDoc} {i : String} (h : d.id = i) :
    maxStep i none d = some d.similarity := by simp [maxStep, h]

theorem maxStep_id_some {d : SearchDoc} {i : String} (h : d.id = i) (m : ℚ) :
    maxStep i (some m) d = some (max m d.similarity) := by simp [maxStep, h]

theorem maxStep_of_ne {d : SearchDoc} {i : String} (h : ¬ d.id = i) (o : Option ℚ) :
    maxStep i o d = o := by simp [maxStep, h]

theorem simOf_dedupInsert (acc : List SearchDoc) (d : SearchDoc) (i : String) :
    simOf (dedupInsert acc d) i = maxStep i (simOf acc i) d := by
  induction acc with
  | nil =>
    by_cases hdi : d.id = i
    · rw [simOf_nil, maxStep_id_none hdi]
      simp [dedupInsert, simOf_cons, hdi]
    · rw [simOf_nil, maxStep_of_ne hdi]
      simp [dedupInsert, simOf_cons, hdi, simOf_nil]
  | cons x xs ih =>
    by_cases hid : x.id = d.id
    · by_cases hdi : d.id = i
      · have hxi : x.id = i := hid.trans hdi
        rw [simOf_cons, if_pos hxi, maxStep_id_some hdi]
        by_cases hsim : d.similarity > x.similarity
        · simp only [dedupInsert, if_pos hid, if_pos hsim]
          rw [simOf_cons, if_pos hdi, max_eq_right (le_of_lt hsim)]
        · simp only [dedupInsert, if_pos hid, if_neg hsim]
          rw [simOf_cons, if_pos hxi, max_eq_left (not_lt.mp hsim)]
      · have hxi : ¬ x.id = i := fun h => hdi (hid ▸ h)
        rw [simOf_cons, if_neg hxi, maxStep_of_ne hdi]
        by_cases hsim : d.similarity > x.similarity
        · simp only [dedupInsert, if_pos hid, if_pos hsim]
          rw [simOf_cons, if_neg hdi]
        · simp only [dedupInsert, if_pos hid, if_neg hsim]
          rw [simOf_cons, if_neg hxi]
    · simp only [dedupInsert, if_neg hid]
      by_cases hxi : x.id = i
      · have hdi : ¬ d.id = i := fun h => hid (hxi.trans h.symm)
        rw [simOf_cons, if_pos hxi, simOf_cons, if_pos hxi, maxStep_of_ne hdi]
      · rw [simOf_cons, if_neg hxi, simOf_cons, if_neg hxi, ih]

theorem simOf_foldl (l : List SearchDoc) (acc : List SearchDoc) (i : String) :
    simOf (l.foldl dedupInsert acc) i = l.foldl (maxStep i) (simOf acc i) := by
  induction l generalizing acc with
  | nil => rfl
  | cons d l ih =>
    simp only [List.foldl_cons]
    rw [ih, simOf_dedupInsert]

theorem simOf_dedup (l : List SearchDoc) (i : String) :
    simOf (_deduplicate_documents l) i = maxSimOf l i := by
  rw [_deduplicate_documents, simOf_foldl, simOf_nil, maxSimOf]

theorem maxSimOf_perm {l₁ l₂ : List SearchDoc} (h : l₁.Perm l₂) (i : String) :
    maxSimOf l₁ i = maxSimOf l₂ i :=
  h.foldl_eq none

theorem foldl_maxStep_some (i : String) :
    ∀ (l : List SearchDoc) (m : ℚ), ∃ q, l.foldl (maxStep i) (some m) = some q ∧ m ≤ q := by
  intro l
  induction l with
  | nil => exact fun m => ⟨m, rfl, le_refl m⟩
  | cons d l ih =>
    intro m
    by_cases hdi : d.id = i
    · rcases ih (max m d.similarity) with ⟨q, hq, hle⟩
      refine ⟨q, ?_, le_trans (le_max_left _ _) hle⟩
      rw [List.foldl_cons, maxStep_id_some hdi]
      exact hq
    · rcases ih m with ⟨q, hq, hle⟩
      refine ⟨q, ?_, hle⟩
      rw [List.foldl_cons, maxStep_of_ne hdi]
      exact hq

theorem foldl_maxStep_le (i : String) :
    ∀ (l : List SearchDoc) (o : Option ℚ) (q : ℚ) (e : SearchDoc),
      e ∈ l → e.id = i → l.foldl (maxStep i) o = some q → e.similarity ≤ q := by
  intro l
  induction l with
  | nil => intro o q e he; exact absurd he (List.not_mem_nil e)
  | cons d l ih =>
    intro o q e he hei hfold
    rcases List.mem_cons.1 he with rfl | he2
    · rw [List.foldl_cons] at hfold
      have hstep : ∃ m, maxStep i o e = some m ∧ e.similarity ≤ m := by
        cases o with
        | none => exact ⟨e.similarity, maxStep_id_none hei, le_refl _⟩
        | some m0 => exact ⟨max m0 e.similarity, maxStep_id_some hei m0, le_max_right _ _⟩
      rcases hstep with ⟨m, hm, hem⟩
      rw [hm] at hfold
      rcases foldl_maxStep_some i l m with ⟨q2, hq2, hmq2⟩
      rw [hfold] at hq2
      injection hq2 with hq2
      exact le_trans hem (hq2 ▸ hmq2)
    · exact ih (maxStep i o d) q e he2 hei (by rw [List.foldl_cons] at hfold; exact hfold)

theorem foldl_maxStep_none (i : String) :
    ∀ (l : List SearchDoc), (∀ e ∈ l, ¬ e.id = i) → l.foldl (maxStep i) none = none := by
  intro l
  induction l with
  | nil => intro _; rfl
  | cons d l ih =>
    intro h
    rw [List.foldl_cons, maxStep_of_ne (h d (List.mem_cons_self d l))]
    exact ih (fun e he => h e (List.mem_cons_of_mem d he))

theorem maxSimOf_some_of_hasId {l : List SearchDoc} {i : String} {q : ℚ}
    (h : maxSimOf l i = some q) : hasId l i := by
  by_contra hn
  rw [maxSimOf, foldl_maxStep_none i l (fun e he hei => hn ⟨e, he, hei⟩)] at h
  exact Option.noConfusion h

theorem find?_of_mem_nodupIds :
    ∀ {m : List SearchDoc}, (m.map SearchDoc.id).Nodup →
      ∀ {d : SearchDoc}, d ∈ m → m.find? (fun e => e.id == d.id) = some d := by
  intro m
  induction m with
  | nil => intro _ d hd; exact absurd hd (List.not_mem_nil d)
  | cons x xs ih =>
    intro h d hd
    simp only [List.map_cons, List.nodup_cons] at h
    rcases List.mem_cons.1 hd with rfl | hd2
    · simp [List.find?_cons]
    · have hne : ¬ x.id = d.id := by
        intro hxd
        exact h.1 (hxd ▸ List.mem_map_of_mem SearchDoc.id hd2)
      rw [List.find?_cons, show (x.id == d.id) = false by simpa using hne]
      exact ih h.2 hd2

theorem simOf_of_mem {m : List SearchDoc} (h : (m.map SearchDoc.id).Nodup)
    {d : SearchDoc} (hd : d ∈ m) : simOf m d.id = some d.similarity := by
  rw [simOf, find?_of_mem_nodupIds h hd]
  rfl

theorem dedup_foldl_nodupIds (l : List SearchDoc) :
    ∀ acc : List SearchDoc, (acc.map SearchDoc.id).Nodup →
      ((l.foldl dedupInsert acc).map SearchDoc.id).Nodup := by
  induction l with
  | nil => intro acc h; exact h
  | cons d l ih =>
    intro acc h
    rw [List.foldl_cons]
    exact ih _ (nodupIds_dedupInsert d h)

theorem dedup_nodup_ids (l : List SearchDoc) :
    ((_deduplicate_documents l).map SearchDoc.id).Nodup :=
  dedup_foldl_nodupIds l [] (by simp)

theorem mem_dedup_foldl (l : List SearchDoc) :
    ∀ (acc : List SearchDoc) (d : SearchDoc), d ∈ l.foldl dedupInsert acc →
      d ∈ acc ∨ d ∈ l := by
  induction l with
  | nil => intro acc d h; exact Or.inl h
  | cons x l ih =>
    intro acc d h
    rw [List.foldl_cons] at h
    rcases ih (dedupInsert acc x) d h with h2 | h2
    · rcases mem_dedupInsert h2 with h3 | h3
      · exact Or.inl h3
      · exact Or.inr (h3 ▸ List.mem_cons_self x l)
    · exact Or.inr (List.mem_cons_of_mem x h2)

theorem mem_of_mem_dedup {l : List SearchDoc} {d : SearchDoc}
    (h : d ∈ _deduplicate_documents l) : d ∈ l := by
  rcases mem_dedup_foldl l [] d h with h2 | h2
  · exact absurd h2 (List.not_mem_nil d)
  · exact h2

theorem hasId_dedup_foldl (l : List SearchDoc) (i : String) :
    ∀ acc : List SearchDoc,
      (hasId (l.foldl dedupInsert acc) i ↔ hasId acc i ∨ hasId l i) := by
  induction l with
  | nil =>
    intro acc
    simp [hasId]
  | cons d l ih =>
    intro acc
    rw [List.foldl_cons]
    rw [ih (dedupInsert acc d)]
    rw [hasId_dedupInsert]
    simp only [hasId, List.mem_cons]
    aesop

theorem hasId_dedup (l : List SearchDoc) (i : String) :
    hasId (_deduplicate_documents l) i ↔ hasId l i := by
  rw [_deduplicate_documents, hasId_dedup_foldl]
  simp [hasId]

theorem dedup_sim_max {l : List SearchDoc} {d : SearchDoc}
    (hd : d ∈ _deduplicate_documents l) {e : SearchDoc} (he : e ∈ l)
    (hei : e.id = d.id) : e.similarity ≤ d.similarity := by
  have h1 : simOf (_deduplicate_documents l) d.id = some d.similarity :=
    simOf_of_mem (dedup_nodup_ids l) hd
  rw [simOf_dedup] at h1
  exact foldl_maxStep_le d.id l none d.similarity e he hei h1


/-! ## Sortedness of the merge stage -/

instance : IsTotal SearchDoc distanceLe := ⟨fun a b => le_total a.distance b.distance⟩

instance : IsTrans SearchDoc distanceLe := ⟨fun a b c hab hbc => le_trans hab hbc⟩

instance : IsTotal ScoredDoc relevanceGe := ⟨fun a b => le_total b.relevance_score a.relevance_score⟩

instance : IsTrans ScoredDoc relevanceGe := ⟨fun a b c hab hbc => le_trans hbc hab⟩

theorem pairwise_ne_id_dedup (l : List SearchDoc) :
    (_deduplicate_documents l).Pairwise (fun a b => a.id ≠ b.id) :=
  List.pairwise_map.1 (dedup_nodup_ids l)

theorem gather_and_rank_invariants (results : List (List SearchDoc)) (n : Nat)
    (hsim : ∀ d ∈ results.flatten, d.similarity = 1 - d.distance) :
    (gather_and_rank results n).length ≤ n ∧
    (gather_and_rank results n).Pairwise (fun a b => a.id ≠ b.id) ∧
    (gather_and_rank results n).Pairwise (fun a b => a.distance ≤ b.distance) ∧
    (gather_and_rank results n).Pairwise (fun a b => b.similarity ≤ a.similarity) := by
  have hperm := List.perm_insertionSort distanceLe (_deduplicate_documents results.flatten)
  have hsorted := List.sorted_insertionSort distanceLe (_deduplicate_documents results.flatten)
  have hsub := List.take_sublist n
    ((_deduplicate_documents results.flatten).insertionSort distanceLe)
  have hmem : ∀ d ∈ gather_and_rank results n, d.similarity = 1 - d.distance := by
    intro d hd
    have h1 : d ∈ (_deduplicate_documents results.flatten).insertionSort distanceLe :=
      hsub.mem hd
    exact hsim d (mem_of_mem_dedup (hperm.mem_iff.1 h1))
  have hids : (gather_and_rank results n).Pairwise (fun a b => a.id ≠ b.id) := by
    have h1 : ((_deduplicate_documents results.flatten).insertionSort
        distanceLe).Pairwise (fun a b => a.id ≠ b.id) :=
      (List.Perm.pairwise_iff (fun h => Ne.symm h) hperm).2
        (pairwise_ne_id_dedup results.flatten)
    exact h1.sublist hsub
  have hdist : (gather_and_rank results n).Pairwise (fun a b => a.distance ≤ b.distance) := by
    have h1 : ((_deduplicate_documents results.flatten).insertionSort
        distanceLe).Pairwise distanceLe := hsorted
    exact (h1.sublist hsub).imp (fun h => h)
  refine ⟨List.length_take_le n _, hids, hdist, ?_⟩
  refine hdist.imp_of_mem ?_
  intro a b ha hb hab
  have h1 := hmem a ha
  have h2 := hmem b hb
  rw [h1, h2]
  linarith

theorem mem_search_single {store : String → Nat → Except Unit (List RawDoc)}
    {c : String} {k : Nat} {d : SearchDoc}
    (h : d ∈ _search_single_collection_optimized store c k) :
    d.similarity = 1 - d.distance := by
  unfold _search_single_collection_optimized at h
  cases hs : store c k with
  | error e => rw [hs] at h; exact absurd h (List.not_mem_nil d)
  | ok rs =>
    rw [hs] at h
    rcases List.mem_map.1 h with ⟨r, _, rfl⟩
    rfl

/-- C1: for every store behaviour, collection list, collection cap and
requested count `n_results ≥ 0`, the list returned by
`search_documents_parallel` has at most `n_results` entries, contains no
two entries with the same id, and is sorted by non-decreasing distance —
equivalently (every returned entry satisfies `similarity = 1 - distance`)
by non-increasing similarity. -/
theorem search_documents_parallel_invariants
    (store : String → Nat → Except Unit (List RawDoc))
    (collections : List String) (max_collections_per_search n_results : Nat) :
    (search_documents_parallel store collections max_collections_per_search n_results).length
        ≤ n_results ∧
    (search_documents_parallel store collections max_collections_per_search
        n_results).Pairwise (fun a b => a.id ≠ b.id) ∧
    (search_documents_parallel store collections max_collections_per_search
        n_results).Pairwise (fun a b => a.distance ≤ b.distance) ∧
    (search_documents_parallel store collections max_collections_per_search
        n_results).Pairwise (fun a b => b.similarity ≤ a.similarity) := by
  by_cases hc : collections = []
  · simp [search_documents_parallel, hc]
  · rw [search_documents_parallel, if_neg hc]
    refine gather_and_rank_invariants _ n_results ?_
    intro d hd
    rcases List.mem_flatten.1 hd with ⟨shard, hshard, hdshard⟩
    rcases List.mem_map.1 hshard with ⟨c, _, rfl⟩
    exact mem_search_single hdshard

/-- C2: `_deduplicate_documents` keeps exactly one document per distinct id
occurring in the input — a document of the input whose similarity is
maximal among the input documents with that id (hence, when every
similarity is `1 - distance`, one whose distance is minimal) — and the
id-to-similarity mapping of the result is the same for every permutation
of the input list. -/
theorem deduplicate_documents_characterization (l l2 : List SearchDoc)
    (hperm : l.Perm l2)
    (hsim : ∀ d ∈ l, d.similarity = 1 - d.distance) :
    ((_deduplicate_documents l).map SearchDoc.id).Nodup ∧
    (∀ i, hasId (_deduplicate_documents l) i ↔ hasId l i) ∧
    (∀ d ∈ _deduplicate_documents l, d ∈ l ∧
      ∀ e ∈ l, e.id = d.id →
        e.similarity ≤ d.similarity ∧ d.distance ≤ e.distance) ∧
    (∀ i, simOf (_deduplicate_documents l) i = simOf (_deduplicate_documents l2) i) := by
  refine ⟨dedup_nodup_ids l, fun i => hasId_dedup l i, ?_, ?_⟩
  · intro d hd
    have hdl := mem_of_mem_dedup hd
    refine ⟨hdl, ?_⟩
    intro e he hei
    have h1 := dedup_sim_max hd he hei
    refine ⟨h1, ?_⟩
    have h2 := hsim d hdl
    have h3 := hsim e he
    rw [h2, h3] at h1
    linarith
  · intro i
    rw [simOf_dedup, simOf_dedup]
    exact maxSimOf_perm hperm i

/-- Concrete input for the C2 witness: two hits with the same id from two
shards, the first with the better similarity. -/
def dW1 : SearchDoc :=
  { id := "a", content := "ca", title := "ta", distance := 0, similarity := 1,
    collection := "c1" }

/-- Concrete input for the C2 witness: the duplicate with the worse
similarity. -/
def dW2 : SearchDoc :=
  { id := "a", content := "cb", title := "tb", distance := 1, similarity := 0,
    collection := "c2" }

theorem deduplicate_documents_characterization_witness :
    ([dW1, dW2] : List SearchDoc).Perm [dW2, dW1] ∧
    ((_deduplicate_documents [dW1, dW2]).map SearchDoc.id).Nodup ∧
    (hasId (_deduplicate_documents [dW1, dW2]) "a" ↔ hasId [dW1, dW2] "a") ∧
    (dW2.similarity ≤ dW1.similarity ∧ dW1.distance ≤ dW2.distance) ∧
    simOf (_deduplicate_documents [dW1, dW2]) "a"
      = simOf (_deduplicate_documents [dW2, dW1]) "a" := by
  have h := deduplicate_documents_characterization [dW1, dW2] [dW2, dW1]
    (by decide) (by intro d hd; fin_cases hd <;> simp [dW1, dW2])
  refine ⟨by decide, h.1, h.2.1 "a", ?_, h.2.2.2 "a"⟩
  have hm : dW1 ∈ _deduplicate_documents [dW1, dW2] := by decide
  exact (h.2.2.1 dW1 hm).2 dW2 (by decide) (by decide)


/-! ## Error absorption in the scatter-gather searcher -/

/-- C5: the failure of a single shard's search task is absorbed at shard
granularity — replacing the failing shard's response by an empty success
leaves the result unchanged, i.e. the shard contributes zero hits — and
when every shard query fails the search returns the empty list.  (The
embedding of `search_documents_parallel` is a total function into lists:
no exception reaches the caller.) -/
theorem shard_failure_absorbed
    (store : String → Nat → Except Unit (List RawDoc)) (c0 : String)
    (collections : List String) (max_collections_per_search n_results : Nat)
    (hfail : ∀ k, store c0 k = Except.error ()) :
    search_documents_parallel store collections max_collections_per_search n_results =
      search_documents_parallel
        (fun c k => if c = c0 then Except.ok [] else store c k)
        collections max_collections_per_search n_results ∧
    search_documents_parallel (fun c k => Except.error ())
        collections max_collections_per_search n_results = [] := by
  constructor
  · by_cases hc : collections = []
    · simp [search_documents_parallel, hc]
    · rw [search_documents_parallel, search_documents_parallel, if_neg hc, if_neg hc]
      congr 1
      apply List.map_congr_left
      intro c hcm
      by_cases hcc : c = c0
      · subst hcc
        rw [_search_single_collection_optimized, _search_single_collection_optimized,
          hfail, if_pos rfl]
        simp
      · rw [_search_single_collection_optimized, _search_single_collection_optimized,
          if_neg hcc]
  · by_cases hc : collections = []
    · simp [search_documents_parallel, hc]
    · rw [search_documents_parallel, if_neg hc]
      have h1 : ((collections.take max_collections_per_search).map
          (fun c => _search_single_collection_optimized (fun c k => Except.error ())
            c (n_results * 2))).flatten = [] := by
        rw [List.flatten_eq_nil_iff]
        intro l hl
        rcases List.mem_map.1 hl with ⟨c, _, rfl⟩
        rfl
      rw [gather_and_rank, h1]
      simp [_deduplicate_documents]

theorem shard_failure_absorbed_witness :
    search_documents_parallel (fun c k => Except.error ()) ["c1", "c2"] 150 10 =
      search_documents_parallel
        (fun c k => if c = "c1" then Except.ok [] else Except.error ())
        ["c1", "c2"] 150 10 ∧
    search_documents_parallel (fun c k => Except.error ()) ["c1", "c2"] 150 10 = [] :=
  shard_failure_absorbed (fun c k => Except.error ()) "c1" ["c1", "c2"] 150 10
    (fun k => rfl)

/-- C6 counterexample: when the embedding service fails, `search_documents`
returns the ordinary empty result list — the failure is not propagated to
the caller, contradicting the claim that the search aborts with the
failure. -/
theorem search_documents_embed_failure_cex :
    search_documents (Except.error ()) (fun _ => []) "co-op" 10 = Except.ok [] ∧
    search_documents (Except.error ()) (fun _ => []) "co-op" 10 ≠ Except.error () :=
  ⟨rfl, fun h => Except.noConfusion h⟩

/-- C6 (amended): `search_documents` swallows every failure: it always
returns `Except.ok`, and an embedding-service failure in particular yields
the successful empty list, indistinguishable from "no documents found";
failures at or below the shard level are likewise absorbed (the shard
searcher is total, cf. the C5 theorem). -/
theorem search_documents_never_raises
    (embed_query : Except Unit (List ℚ)) (search_unified : List ℚ → List SearchDoc)
    (query : String) (n_results : Nat) :
    (∃ res, search_documents embed_query search_unified query n_results = Except.ok res) ∧
    search_documents (Except.error ()) search_unified query n_results = Except.ok [] :=
  ⟨⟨_, rfl⟩, rfl⟩

/-- C10: the `n_results` parameter of `_filter_and_rank_documents` is dead —
any two values produce the same output — and the output never exceeds 10
entries, is sorted by non-increasing relevance score, and consists of input
documents tagged with their computed relevance scores. -/
theorem filter_and_rank_ignores_n (documents : List SearchDoc) (query : String)
    (n1 n2 : Nat) :
    _filter_and_rank_documents documents query n1
      = _filter_and_rank_documents documents query n2 ∧
    (_filter_and_rank_documents documents query n1).length ≤ 10 ∧
    (_filter_and_rank_documents documents query n1).Pairwise
      (fun a b => b.relevance_score ≤ a.relevance_score) ∧
    (∀ sd ∈ _filter_and_rank_documents documents query n1, sd.doc ∈ documents ∧
      sd.relevance_score = _calculate_relevance_score sd.doc (query_terms_of query)) := by
  refine ⟨rfl, ?_, ?_, ?_⟩
  · by_cases hd : documents = []
    · simp [_filter_and_rank_documents, hd]
    · rw [_filter_and_rank_documents, if_neg hd]
      exact List.length_take_le 10 _
  · by_cases hd : documents = []
    · simp [_filter_and_rank_documents, hd]
    · rw [_filter_and_rank_documents, if_neg hd]
      have h1 := List.sorted_insertionSort relevanceGe
        (documents.map (fun d =>
          { doc := d, relevance_score := _calculate_relevance_score d (query_terms_of query) }))
      exact (h1.sublist (List.take_sublist 10 _)).imp (fun h => h)
  · intro sd hsd
    by_cases hd : documents = []
    · rw [_filter_and_rank_documents, if_pos hd] at hsd
      exact absurd hsd (List.not_mem_nil sd)
    · rw [_filter_and_rank_documents, if_neg hd] at hsd
      have h1 : sd ∈ (documents.map (fun d =>
          ({ doc := d, relevance_score :=
              _calculate_relevance_score d (query_terms_of query) } : ScoredDoc))) :=
        ((List.perm_insertionSort relevanceGe _).mem_iff).1
          ((List.take_sublist 10 _).mem hsd)
      rcases List.mem_map.1 h1 with ⟨d, hdm, rfl⟩
      exact ⟨hdm, rfl⟩

/-! ## The collection directory -/

/-- The page function used by concrete directory scenarios: one page with a
single collection at offset 0. -/
def pagesW : Nat → Except Unit (List String) :=
  fun off => if off = 0 then Except.ok ["batch_hit"] else Except.ok []

/-- C7 counterexample: a fresh timestamp (`now - last_cache_update <
cache_ttl`) with an EMPTY cached list does not short-circuit: the read
refreshes (the returned list is not the cached one and the state changes),
because the code also requires the cached list to be non-empty. -/
theorem get_batch_collections_cache_cex :
    ((0 : ℚ) - 0 < 300) ∧
    (get_batch_collections_svc ⟨[], 0⟩ 300 0 false (Except.ok ()) pagesW 2).2 ≠ [] ∧
    (get_batch_collections_svc ⟨[], 0⟩ 300 0 false (Except.ok ()) pagesW 2).1 ≠ ⟨[], 0⟩ := by
  refine ⟨by norm_num, by decide, by decide⟩

/-- C7 (amended): a read with `force_refresh = false` returns the cached
list unchanged iff the cache is non-empty and fresh; otherwise it performs
a synchronous refresh before returning — on success the returned list is
the new cache and `last_cache_update` becomes `now`; when the refresh
fails at client creation the stale cache is returned unchanged. -/
theorem get_batch_collections_cache_policy (st : CacheState) (cache_ttl now : ℚ)
    (get_client : Except Unit Unit) (pages : Nat → Except Unit (List String))
    (fuel : Nat) :
    (st.collections_cache ≠ [] → now - st.last_cache_update < cache_ttl →
      get_batch_collections_svc st cache_ttl now false get_client pages fuel
        = (st, st.collections_cache)) ∧
    (¬ (st.collections_cache ≠ [] ∧ now - st.last_cache_update < cache_ttl) →
      (get_batch_collections_svc st cache_ttl now false (Except.ok ())
          pages fuel).1.last_cache_update = now ∧
      (get_batch_collections_svc st cache_ttl now false (Except.ok ())
          pages fuel).1.collections_cache
        = (get_batch_collections_svc st cache_ttl now false (Except.ok ())
            pages fuel).2) ∧
    (¬ (st.collections_cache ≠ [] ∧ now - st.last_cache_update < cache_ttl) →
      get_batch_collections_svc st cache_ttl now false (Except.error ()) pages fuel
        = (st, st.collections_cache)) := by
  refine ⟨?_, ?_, ?_⟩
  · intro h1 h2
    unfold get_batch_collections_svc
    rw [if_pos ⟨rfl, h1, h2⟩]
  · intro h
    unfold get_batch_collections_svc
    rw [if_neg (fun hcon => h ⟨hcon.2.1, hcon.2.2⟩)]
    exact ⟨rfl, rfl⟩
  · intro h
    unfold get_batch_collections_svc
    rw [if_neg (fun hcon => h ⟨hcon.2.1, hcon.2.2⟩)]

/-- Concrete cache state with a non-empty, fresh cache, for the C7
witness. -/
def stHitW : CacheState := ⟨["cached_batch"], 0⟩

/-- Concrete cache state with an empty cache, for the C7 witness. -/
def stMissW : CacheState := ⟨[], 0⟩

theorem get_batch_collections_cache_policy_witness :
    stHitW.collections_cache ≠ [] ∧
    (0 : ℚ) - stHitW.last_cache_update < 300 ∧
    get_batch_collections_svc stHitW 300 0 false (Except.ok ()) pagesW 2
      = (stHitW, stHitW.collections_cache) ∧
    (get_batch_collections_svc stMissW 300 0 false (Except.ok ())
        pagesW 2).1.last_cache_update = 0 ∧
    (get_batch_collections_svc stMissW 300 0 false (Except.ok ())
        pagesW 2).1.collections_cache
      = (get_batch_collections_svc stMissW 300 0 false (Except.ok ()) pagesW 2).2 ∧
    get_batch_collections_svc stMissW 300 0 false (Except.error ()) pagesW 2
      = (stMissW, stMissW.collections_cache) := by
  have h1 := (get_batch_collections_cache_policy stHitW 300 0 (Except.ok ()) pagesW 2).1
    (by decide) (by simp [stHitW])
  have h2 := (get_batch_collections_cache_policy stMissW 300 0 (Except.ok ()) pagesW 2).2.1
    (by simp [stMissW])
  have h3 := (get_batch_collections_cache_policy stMissW 300 0 (Except.ok ()) pagesW 2).2.2
    (by simp [stMissW])
  exact ⟨by decide, by simp [stHitW], h1, h2.1, h2.2, h3⟩

theorem fetchAllPages_all_error (fuel : Nat) (acc : List String) (off : Nat) :
    fetchAllPages (fun _ => Except.error ()) fuel acc off = acc := by
  cases fuel <;> simp [fetchAllPages]

/-- C4 counterexample: the client is obtained and every listing call
raises; the pagination loop catches each failure internally, so
`get_batch_collections` returns the EMPTY list — not the non-empty
synthesized fallback of 3280 template names the claim promises. -/
theorem get_batch_collections_fallback_cex :
    (get_batch_collections_opt ⟨[], 0⟩ 300 7 false (Except.ok ())
        (fun _ => Except.error ()) 5).2 = [] ∧
    fallback_collections.length = 3280 ∧
    ([] : List String).length ≠ 3280 := by
  refine ⟨by decide, ?_, by decide⟩
  simp [fallback_collections]

/-- C4 (amended): the fallback applies to exceptions that escape the
pagination loop — in particular a client-creation failure — in which case
`get_batch_collections` returns the deterministic non-empty list
`documents_ultra_optimized_batch_i` for `i = 1..3280`; an exception raised
by the listing call itself is caught inside the loop, and when every
listing call raises the function returns the empty accumulated list. -/
theorem get_batch_collections_fallback (st : CacheState) (cache_ttl now : ℚ)
    (force_refresh : Bool) (pages : Nat → Except Unit (List String)) (fuel fuel2 : Nat)
    (hmiss : ¬ (force_refresh = false ∧ st.collections_cache ≠ [] ∧
      now - st.last_cache_update < cache_ttl)) :
    (get_batch_collections_opt st cache_ttl now force_refresh (Except.error ())
        pages fuel).2 = fallback_collections ∧
    (get_batch_collections_opt st cache_ttl now force_refresh (Except.ok ())
        (fun _ => Except.error ()) fuel2).2 = [] ∧
    fallback_collections.length = 3280 ∧
    fallback_collections ≠ [] ∧
    (∀ k, k < 3280 → fallback_collections[k]?
      = some ("documents_ultra_optimized_batch_" ++ toString (k + 1))) := by
  refine ⟨?_, ?_, ?_, ?_, ?_⟩
  · unfold get_batch_collections_opt
    rw [if_neg hmiss]
  · unfold get_batch_collections_opt
    rw [if_neg hmiss]
    simp [fetchAllPages_all_error]
  · simp [fallback_collections]
  · simp [fallback_collections]
  · intro k hk
    simp [fallback_collections, List.getElem?_map, List.getElem?_range hk]

theorem get_batch_collections_fallback_witness :
    ¬ (false = false ∧ stMissW.collections_cache ≠ [] ∧
      (7 : ℚ) - stMissW.last_cache_update < 300) ∧
    (get_batch_collections_opt stMissW 300 7 false (Except.error ())
        pagesW 5).2 = fallback_collections ∧
    (get_batch_collections_opt stMissW 300 7 false (Except.ok ())
        (fun _ => Except.error ()) 5).2 = [] ∧
    fallback_collections.length = 3280 ∧
    fallback_collections ≠ [] ∧
    fallback_collections[0]? = some ("documents_ultra_optimized_batch_" ++ toString (0 + 1)) := by
  have h := get_batch_collections_fallback stMissW 300 7 false pagesW 5 5
    (by simp [stMissW])
  exact ⟨by simp [stMissW], h.1, h.2.1, h.2.2.1, h.2.2.2.1, h.2.2.2.2 0 (by decide)⟩


theorem fetchAllPages_run (pages : Nat → Except Unit (List String)) :
    ∀ (k fuel : Nat) (acc : List String) (off : Nat),
      (∀ i, i < k → ∃ p, pages (off + 1000 * i) = Except.ok p ∧ p.length = 1000) →
      k < fuel →
      ((pages (off + 1000 * k) = Except.error () →
          fetchAllPages pages fuel acc off = acc ++ okPagesFrom pages off k) ∧
       (∀ p, pages (off + 1000 * k) = Except.ok p → p.length < 1000 →
          fetchAllPages pages fuel acc off = acc ++ okPagesFrom pages off k ++ p)) := by
  intro k
  induction k with
  | zero =>
    intro fuel acc off hfull hfuel
    obtain ⟨f, rfl⟩ : ∃ f, fuel = f + 1 := ⟨fuel - 1, by omega⟩
    constructor
    · intro herr
      rw [show off + 1000 * 0 = off by ring] at herr
      rw [fetchAllPages, herr, okPagesFrom]
      simp
    · intro p hok hshort
      rw [show off + 1000 * 0 = off by ring] at hok
      rw [fetchAllPages, hok, okPagesFrom]
      by_cases hz : p.length = 0
      · simp [hz, List.length_eq_zero.1 hz]
      · simp [hz, hshort]
  | succ k ih =>
    intro fuel acc off hfull hfuel
    obtain ⟨f, rfl⟩ : ∃ f, fuel = f + 1 := ⟨fuel - 1, by omega⟩
    obtain ⟨p0, hp0, hp0len⟩ := hfull 0 (Nat.succ_pos k)
    rw [show off + 1000 * 0 = off by ring] at hp0
    have hstep : fetchAllPages pages (f + 1) acc off
        = fetchAllPages pages f (acc ++ p0) (off + 1000) := by
      rw [fetchAllPages, hp0]
      simp [hp0len]
    have hshift : ∀ i, i < k → ∃ p, pages (off + 1000 + 1000 * i) = Except.ok p ∧
        p.length = 1000 := by
      intro i hi
      have := hfull (i + 1) (by omega)
      rwa [show off + 1000 * (i + 1) = off + 1000 + 1000 * i by ring] at this
    have hih := ih f (acc ++ p0) (off + 1000) hshift (by omega)
    have hpg : okPagesFrom pages off (k + 1) = p0 ++ okPagesFrom pages (off + 1000) k := by
      rw [okPagesFrom, hp0]
    constructor
    · intro herr
      rw [show off + 1000 * (k + 1) = off + 1000 + 1000 * k by ring] at herr
      rw [hstep, hih.1 herr, hpg, List.append_assoc]
    · intro p hok hshort
      rw [show off + 1000 * (k + 1) = off + 1000 + 1000 * k by ring] at hok
      rw [hstep, hih.2 p hok hshort, hpg]
      simp [List.append_assoc]

/-- C8: collection discovery pages through the listing endpoint with the
fixed page size 1000 at offsets 0, 1000, 2000, …, accumulating the pages;
after `k` full pages it stops at page `k` exactly when that page raises —
in which case the pages accumulated so far are kept, with no retry — or is
empty, or is shorter than the page size (the short page being kept). -/
theorem pagination_behaviour (pages : Nat → Except Unit (List String)) (k fuel : Nat)
    (hfull : ∀ i, i < k → ∃ p, pages (1000 * i) = Except.ok p ∧ p.length = 1000)
    (hfuel : k < fuel) :
    (pages (1000 * k) = Except.error () →
      fetchAllPages pages fuel [] 0 = okPagesFrom pages 0 k) ∧
    ((pages (1000 * k) = Except.ok [] →
      fetchAllPages pages fuel [] 0 = okPagesFrom pages 0 k) ∧
     (∀ p, pages (1000 * k) = Except.ok p → p.length < 1000 →
      fetchAllPages pages fuel [] 0 = okPagesFrom pages 0 k ++ p)) := by
  have h := fetchAllPages_run pages k fuel [] 0
    (by intro i hi; simpa using hfull i hi) hfuel
  rw [show (0 : Nat) + 1000 * k = 1000 * k by ring] at h
  refine ⟨fun herr => by simpa using h.1 herr, ?_, ?_⟩
  · intro hempty
    simpa using h.2 [] hempty (by simp)
  · intro p hok hshort
    simpa using h.2 p hok hshort

/-- Page function for the C8 witness: two full pages then an exception. -/
def pagesRunW : Nat → Except Unit (List String) :=
  fun off => if off < 2000 then Except.ok (List.replicate 1000 "col") else Except.error ()

theorem pagination_behaviour_witness :
    2 < 3 ∧ pagesRunW 2000 = Except.error () ∧
    fetchAllPages pagesRunW 3 [] 0 = okPagesFrom pagesRunW 0 2 :=
  ⟨by omega, rfl,
    (pagination_behaviour pagesRunW 2 3
      (by intro i hi
          interval_cases i <;>
            exact ⟨List.replicate 1000 "col", rfl, by rw [List.length_replicate]⟩)
      (by omega)).1 rfl⟩


/-! ## The relevance-score formula -/

theorem min_max_clamp (a b x : ℚ) (h : a ≤ b) :
    min (max a x) b = max a (min x b) := by
  rcases le_total x a with h1 | h1
  · rw [min_eq_left (h1.trans h), max_eq_left h1, min_eq_left h]
  · rcases le_total x b with h2 | h2
    · rw [min_eq_left h2, max_eq_right h1, min_eq_left h2]
    · rw [min_eq_right h2, max_eq_right h1, min_eq_right h2, max_eq_right h]

theorem scored_mem_filter_and_rank {documents : List SearchDoc} {query : String}
    {n : Nat} {sd : ScoredDoc} (h : sd ∈ _filter_and_rank_documents documents query n) :
    sd.doc ∈ documents ∧
    sd.relevance_score = _calculate_relevance_score sd.doc (query_terms_of query) := by
  by_cases hd : documents = []
  · rw [_filter_and_rank_documents, if_pos hd] at h
    exact absurd h (List.not_mem_nil sd)
  · rw [_filter_and_rank_documents, if_neg hd] at h
    have h1 : sd ∈ (documents.map (fun d =>
        ({ doc := d, relevance_score :=
            _calculate_relevance_score d (query_terms_of query) } : ScoredDoc))) :=
      ((List.perm_insertionSort relevanceGe _).mem_iff).1
        ((List.take_sublist 10 _).mem h)
    rcases List.mem_map.1 h1 with ⟨d, hdm, rfl⟩
    exact ⟨hdm, rfl⟩

/-- C3 (amended): the score attached to every ranked document is
`similarity * 0.6 + content_term_overlap * 0.3 + title_term_overlap * 0.1`
clamped to `[0.1, 1.0]`, where the overlaps are the fractions of query
terms — lowercased and whitespace-split, WITHOUT any stopword removal —
occurring as substrings of the lowercased content and title. -/
theorem calculate_relevance_eq_spec (doc : SearchDoc) (query : String)
    (documents : List SearchDoc) (n : Nat) :
    _calculate_relevance_score doc (query_terms_of query) = relevance_score_spec doc query ∧
    (∀ sd ∈ _filter_and_rank_documents documents query n,
      sd.relevance_score = relevance_score_spec sd.doc query) := by
  have main : ∀ d : SearchDoc,
      _calculate_relevance_score d (query_terms_of query) = relevance_score_spec d query := by
    intro d
    have htf : (query_terms_of query).toFinset = (splitWs (lower query)).toFinset := by
      ext a
      simp [query_terms_of, List.mem_toFinset, List.mem_dedup]
    have hcard : ((splitWs (lower query)).toFinset).card = (query_terms_of query).length :=
      List.card_toFinset _
    have hnil : (query_terms_of query = []) ↔ ((splitWs (lower query)).toFinset = ∅) := by
      rw [List.toFinset_eq_empty_iff, query_terms_of, List.dedup_eq_nil]
    have hcount : ∀ p : String → Bool,
        ((splitWs (lower query)).toFinset.filter (fun x => p x = true)).card
          = (query_terms_of query).countP p := by
      intro p
      have hnd : ((query_terms_of query).filter p).Nodup :=
        List.Nodup.filter p (by rw [query_terms_of]; exact List.nodup_dedup _)
      rw [← htf, ← List.toFinset_filter, List.toFinset_card_of_nodup hnd,
        List.countP_eq_length_filter]
    have harg : ∀ pc : String → Bool,
        (if query_terms_of query = [] then (0 : ℚ)
          else ((query_terms_of query).countP pc : ℚ) / ((query_terms_of query).length : ℚ))
        = (if (splitWs (lower query)).toFinset = ∅ then (0 : ℚ)
          else (((splitWs (lower query)).toFinset.filter (fun x => pc x = true)).card : ℚ)
            / (((splitWs (lower query)).toFinset).card : ℚ)) := by
      intro pc
      by_cases hq : query_terms_of query = []
      · rw [if_pos hq, if_pos (hnil.1 hq)]
      · rw [if_neg hq, if_neg (fun he => hq (hnil.2 he)), hcount, hcard]
    rw [_calculate_relevance_score, relevance_score_spec]
    rw [harg (fun t => isSubstrOf t (lower d.content)),
      harg (fun t => isSubstrOf t (lower d.title)),
      min_max_clamp _ _ _ (by norm_num)]
  refine ⟨main doc, ?_⟩
  intro sd hsd
  rw [(scored_mem_filter_and_rank hsd).2, main sd.doc]

/-- Concrete document for the C3 counterexample: its content contains the
stopword "what" of the query "what foo". -/
def docW3 : SearchDoc :=
  { id := "d", content := "what else", title := "", distance := 0, similarity := 1,
    collection := "c" }

/-- C3 counterexample: for the query "what foo" the code scores `docW3` as
`1 * 0.6 + (1/2) * 0.3 + 0 * 0.1 = 3/4` — the stopword "what" counts as a
query term and matches the content — whereas the claimed formula (stopword
list removed) yields `3/5`.  So `_calculate_relevance_score` does not
implement the claimed stopword-filtered overlap. -/
theorem calculate_relevance_stopwords_cex :
    _calculate_relevance_score docW3 (query_terms_of "what foo") = 3 / 4 ∧
    relevance_score_claimed docW3 "what foo" = 3 / 5 ∧
    ((3 : ℚ) / 4) ≠ 3 / 5 := by
  refine ⟨?_, ?_, by norm_num⟩
  · have h1 : query_terms_of "what foo" = ["what", "foo"] := by decide
    have h2 : (["what", "foo"].countP
        (fun t => isSubstrOf t (lower docW3.content))) = 1 := by decide
    have h3 : (["what", "foo"].countP
        (fun t => isSubstrOf t (lower docW3.title))) = 0 := by decide
    rw [_calculate_relevance_score, h1]
    rw [h2, h3]
    have hne : (["what", "foo"] : List String) ≠ [] := by decide
    rw [if_neg hne, if_neg hne]
    simp only [docW3]
    norm_num [max_def, min_def]
  · have h1 : ((splitWs (lower "what foo")).dedup).filter
        (fun t => ¬ stop_words.contains t) = ["foo"] := by decide
    have h2 : (["foo"].countP
        (fun t => isSubstrOf t (lower docW3.content))) = 0 := by decide
    have h3 : (["foo"].countP
        (fun t => isSubstrOf t (lower docW3.title))) = 0 := by decide
    rw [relevance_score_claimed]
    rw [h1, h2, h3]
    simp only [docW3]
    norm_num [max_def, min_def]


/-! ## Arrival-order stability of the merge stage -/

/-- Concrete hit for the C9 counterexample: id "a" at distance 0. -/
def dA9 : SearchDoc :=
  { id := "a", content := "", title := "", distance := 0, similarity := 1,
    collection := "c1" }

/-- Concrete hit for the C9 counterexample: id "b", also at distance 0. -/
def dB9 : SearchDoc :=
  { id := "b", content := "", title := "", distance := 0, similarity := 1,
    collection := "c2" }

/-- C9 counterexample: two shards return distinct documents tied at the
same distance and only one slot is requested; gathering in the two arrival
orders returns different top-1 sets (`{a}` versus `{b}`), so set membership
of the result does depend on arrival order. -/
theorem gather_and_rank_order_cex :
    ([[dA9], [dB9]] : List (List SearchDoc)).Perm [[dB9], [dA9]] ∧
    dA9 ∈ gather_and_rank [[dA9], [dB9]] 1 ∧
    dA9 ∉ gather_and_rank [[dB9], [dA9]] 1 := by
  refine ⟨by decide, by decide, by decide⟩

/-- The sort-relevant projection of a document: its distance key paired
with its id. -/
def pk (d : SearchDoc) : ℚ × String := (d.distance, d.id)

theorem pk_mem_dedup {l : List SearchDoc}
    (hsim : ∀ d ∈ l, d.similarity = 1 - d.distance) (x : ℚ) (i : String) :
    (x, i) ∈ (_deduplicate_documents l).map pk ↔
      ∃ q, maxSimOf l i = some q ∧ x = 1 - q := by
  constructor
  · intro hmem
    rcases List.mem_map.1 hmem with ⟨d, hd, hpk⟩
    have hdx : d.distance = x := congrArg Prod.fst hpk
    have hdi : d.id = i := congrArg Prod.snd hpk
    have h1 : simOf (_deduplicate_documents l) d.id = some d.similarity :=
      simOf_of_mem (dedup_nodup_ids l) hd
    rw [simOf_dedup, hdi] at h1
    refine ⟨d.similarity, h1, ?_⟩
    have h2 := hsim d (mem_of_mem_dedup hd)
    rw [← hdx]
    linarith
  · rintro ⟨q, hq, rfl⟩
    have hhas2 : hasId (_deduplicate_documents l) i :=
      (hasId_dedup l i).2 (maxSimOf_some_of_hasId hq)
    rcases hhas2 with ⟨d, hd, hdi⟩
    have h1 : simOf (_deduplicate_documents l) d.id = some d.similarity :=
      simOf_of_mem (dedup_nodup_ids l) hd
    rw [simOf_dedup, hdi, hq] at h1
    have hq2 : q = d.similarity := Option.some.inj h1
    refine List.mem_map.2 ⟨d, hd, ?_⟩
    have hds := hsim d (mem_of_mem_dedup hd)
    have hdq : d.distance = 1 - q := by
      rw [hq2]
      linarith
    rw [pk, hdq, hdi]

theorem nodup_pk_dedup (l : List SearchDoc) :
    ((_deduplicate_documents l).map pk).Nodup := by
  have h1 : ((_deduplicate_documents l).map pk).map Prod.snd
      = (_deduplicate_documents l).map SearchDoc.id := by
    rw [List.map_map]
    exact List.map_congr_left (fun d _ => rfl)
  have h2 : (((_deduplicate_documents l).map pk).map Prod.snd).Nodup := by
    rw [h1]
    exact dedup_nodup_ids l
  exact List.Nodup.of_map Prod.snd h2

theorem sorted_strict_pk {l : List SearchDoc}
    (hne : (∀ d ∈ l, ∀ e ∈ l, d.id ≠ e.id → d.distance ≠ e.distance)) :
    (((_deduplicate_documents l).insertionSort distanceLe).map pk).Pairwise
      (fun a b => a.1 < b.1) := by
  have hperm := List.perm_insertionSort distanceLe (_deduplicate_documents l)
  have hsorted := List.sorted_insertionSort distanceLe (_deduplicate_documents l)
  have hpne : (_deduplicate_documents l).Pairwise
      (fun a b => a.distance ≠ b.distance) := by
    refine (pairwise_ne_id_dedup l).imp_of_mem ?_
    intro a b ha hb hab
    exact hne a (mem_of_mem_dedup ha) b (mem_of_mem_dedup hb) hab
  have hpne2 : ((_deduplicate_documents l).insertionSort distanceLe).Pairwise
      (fun a b => a.distance ≠ b.distance) :=
    (List.Perm.pairwise_iff (fun h => Ne.symm h) hperm).2 hpne
  have hlt : ((_deduplicate_documents l).insertionSort distanceLe).Pairwise
      (fun a b => a.distance < b.distance) :=
    (hsorted.and hpne2).imp (fun h => lt_of_le_of_ne h.1 h.2)
  exact List.pairwise_map.2 (hlt.imp (fun h => h))

/-- C9 (amended): for a fixed multiset of per-shard results in which every
document satisfies `similarity = 1 - distance` (as the per-shard searcher
guarantees) and no two distinct ids are tied at the same distance, the ids
of the merged top-`n` result — even their order — do not depend on the
order in which the per-shard results were gathered.  Without the
tie-freeness assumption this fails (see the C9 counterexample): a distance
tie at the truncation boundary lets arrival order decide membership. -/
theorem gather_and_rank_order_stable (res1 res2 : List (List SearchDoc)) (n : Nat)
    (hperm : res1.Perm res2)
    (hsim : ∀ d ∈ res1.flatten, d.similarity = 1 - d.distance)
    (hdist : ∀ d ∈ res1.flatten, ∀ e ∈ res1.flatten,
      d.id ≠ e.id → d.distance ≠ e.distance) :
    (gather_and_rank res1 n).map SearchDoc.id
      = (gather_and_rank res2 n).map SearchDoc.id := by
  have hpl : res1.flatten.Perm res2.flatten := hperm.flatten
  have hsim2 : ∀ d ∈ res2.flatten, d.similarity = 1 - d.distance :=
    fun d hd => hsim d (hpl.mem_iff.2 hd)
  have hdist2 : ∀ d ∈ res2.flatten, ∀ e ∈ res2.flatten,
      d.id ≠ e.id → d.distance ≠ e.distance :=
    fun d hd e he => hdist d (hpl.mem_iff.2 hd) e (hpl.mem_iff.2 he)
  have hfin : ((_deduplicate_documents res1.flatten).map pk).toFinset
      = ((_deduplicate_documents res2.flatten).map pk).toFinset := by
    ext z
    rcases z with ⟨x, i⟩
    rw [List.mem_toFinset, List.mem_toFinset, pk_mem_dedup hsim x i,
      pk_mem_dedup hsim2 x i, maxSimOf_perm hpl i]
  have hpermpk : ((_deduplicate_documents res1.flatten).map pk).Perm
      ((_deduplicate_documents res2.flatten).map pk) :=
    List.perm_of_nodup_nodup_toFinset_eq (nodup_pk_dedup res1.flatten)
      (nodup_pk_dedup res2.flatten) hfin
  have hpermsort : (((_deduplicate_documents res1.flatten).insertionSort
        distanceLe).map pk).Perm
      (((_deduplicate_documents res2.flatten).insertionSort distanceLe).map pk) :=
    (((List.perm_insertionSort distanceLe _).map pk).trans hpermpk).trans
      ((List.perm_insertionSort distanceLe _).map pk).symm
  haveI : IsAntisymm (ℚ × String) (fun a b => a.1 < b.1) :=
    ⟨fun a b h1 h2 => absurd (lt_trans h1 h2) (lt_irrefl _)⟩
  have heq : ((_deduplicate_documents res1.flatten).insertionSort distanceLe).map pk
      = ((_deduplicate_documents res2.flatten).insertionSort distanceLe).map pk :=
    List.eq_of_perm_of_sorted hpermsort (sorted_strict_pk hdist) (sorted_strict_pk hdist2)
  have hid : ∀ res : List (List SearchDoc),
      (gather_and_rank res n).map SearchDoc.id
        = ((((_deduplicate_documents res.flatten).insertionSort
            distanceLe).map pk).take n).map Prod.snd := by
    intro res
    rw [gather_and_rank, ← List.map_take, List.map_map]
    exact List.map_congr_left (fun d _ => rfl)
  rw [hid res1, hid res2, heq]

/-- Concrete hit for the C9 witness: id "b" at distance 1, so that the two
ids are not tied. -/
def dB9W : SearchDoc :=
  { id := "b", content := "", title := "", distance := 1, similarity := 0,
    collection := "c2" }

theorem gather_and_rank_order_stable_witness :
    ([[dA9], [dB9W]] : List (List SearchDoc)).Perm [[dB9W], [dA9]] ∧
    (gather_and_rank [[dA9], [dB9W]] 1).map SearchDoc.id
      = (gather_and_rank [[dB9W], [dA9]] 1).map SearchDoc.id := by
  refine ⟨by decide, gather_and_rank_order_stable [[dA9], [dB9W]] [[dB9W], [dA9]] 1
    (by decide) ?_ ?_⟩
  · intro d hd
    fin_cases hd <;> simp [dA9, dB9W]
  · intro d hd e he
    fin_cases hd <;> fin_cases he <;> simp [dA9, dB9W]

